import Mathlib

/-!
Verification development for the ASR-Server repository
(src/config.py, src/transcription.py, src/server.py).

The Python source is shallowly embedded as pure Lean functions:

* the file system is a list of existing path names, threaded explicitly;
* the external `whisper-cli` engine is an oracle `Engine` mapping the
  constructed argument list and the timeout to an outcome (completion with
  exit code / stdout / stderr, or a timeout), following the repository's own
  design note that the engine is a black box judged only by exit code and
  captured streams;
* Python exceptions become `Except` values;
* `re.sub(r'\[[\d:\.]+\s*-->\s*[\d:\.]+\]\s*', '', text)` becomes a
  left-to-right scanner `stripTs`; for this particular pattern greedy
  matching never needs backtracking (the character classes of adjacent
  pieces are disjoint), so maximal munch coincides with the regex engine;
* `\d`, `\s` and `str.strip` are modelled over their ASCII parts
  (digits `0`-`9` and the six ASCII whitespace characters);
* Python `float` configuration values are modelled as `Rat` (no claim
  depends on floating-point rounding);
* a YAML configuration file is modelled in parsed form: each of the three
  recognized sections is an association list of keys to scalar values
  (other top-level keys are never read by `load_config` and are omitted).
-/

deriving instance DecidableEq for Except

/-! ## Character classes used by the timestamp regex and by strip -/

/-- The character class `[\d:\.]` of the timestamp regex (ASCII digits,
colon, dot). -/
def isTsChar (c : Char) : Bool :=
  c.isDigit || c == ':' || c == '.'

/-- The regex class `\s` / `str.strip` whitespace, modelled over ASCII:
space, tab, newline, carriage return, vertical tab, form feed. -/
def isSpaceChar (c : Char) : Bool :=
  c == ' ' || c == '\t' || c == '\n' || c == '\x0d' || c == '\x0b' || c == '\x0c'

/-- Python `str.strip()` on a character list: drop leading and trailing
whitespace. -/
def pyStripL (l : List Char) : List Char :=
  ((l.dropWhile isSpaceChar).reverse.dropWhile isSpaceChar).reverse

/-- Python `str.strip()` on a string. -/
def pyStrip (s : String) : String :=
  String.mk (pyStripL s.data)

/-! ## The timestamp-markup matcher

`matchTs` attempts to match the regex `\[[\d:\.]+\s*-->\s*[\d:\.]+\]\s*`
at the head of the character list, returning the remainder on success. -/

/-- Match the literal `-->` at the head of the list. -/
def matchArrow (l : List Char) : Option (List Char) :=
  match l with
  | a :: b :: c :: r => if a = '-' ∧ b = '-' ∧ c = '>' then some r else none
  | _ => none

/-- Match the closing `]` followed by the trailing `\s*` of the pattern. -/
def matchClose (l : List Char) : Option (List Char) :=
  match l with
  | c :: r5 => if c = ']' then some (r5.dropWhile isSpaceChar) else none
  | [] => none

/-- Match `[\d:\.]+\s*-->\s*[\d:\.]+\]\s*` (the part of the timestamp
pattern after the opening bracket), returning the rest of the input. -/
def matchBracketBody (rest : List Char) : Option (List Char) :=
  if (rest.takeWhile isTsChar).isEmpty then none
  else
    (matchArrow ((rest.dropWhile isTsChar).dropWhile isSpaceChar)).bind (fun r3 =>
      if ((r3.dropWhile isSpaceChar).takeWhile isTsChar).isEmpty then none
      else matchClose ((r3.dropWhile isSpaceChar).dropWhile isTsChar))

/-- Match the whole timestamp pattern `\[[\d:\.]+\s*-->\s*[\d:\.]+\]\s*`
at the head of the input. -/
def matchTs (l : List Char) : Option (List Char) :=
  match l with
  | [] => none
  | c :: rest => if c = '[' then matchBracketBody rest else none

/-- Generic left-to-right scan-and-delete: at each position try the matcher;
on success delete the matched span and continue after it, otherwise keep one
character and advance.  This is `re.sub(pattern, '', s)` for patterns whose
matcher is deterministic.  Fuelled so that it is structurally recursive; the
fuel `l.length` always suffices because a successful match consumes at least
one character. -/
def scanStripAux (f : List Char → Option (List Char)) : Nat → List Char → List Char
  | _, [] => []
  | 0, l => l
  | n + 1, c :: cs =>
    match f (c :: cs) with
    | some r => scanStripAux f n r
    | none => c :: scanStripAux f n cs

/-- `re.sub(r'\[[\d:\.]+\s*-->\s*[\d:\.]+\]\s*', '', ·)` on character
lists. -/
def stripTs (l : List Char) : List Char :=
  scanStripAux matchTs l.length l

/-- Output cleaning of `Transcriber.transcribe` (transcription.py lines
92-96): `text = result.stdout.strip()`, then the timestamp-markup
substitution, then `text.strip()` again. -/
def cleanOutput (s : String) : String :=
  String.mk (pyStripL (stripTs (pyStripL s.data)))

/-! ## Configuration data model (config.py) -/

/-- `ServerConfig` dataclass with its field defaults. -/
structure ServerConfig where
  host : String := "0.0.0.0"
  port : Int := 8005
deriving DecidableEq

/-- `WhisperConfig` dataclass with its field defaults. -/
structure WhisperConfig where
  model_path : String := "models/ggml-base.bin"
  language : String := "en"
  threads : Int := 4
deriving DecidableEq

/-- `VADConfig` dataclass with its field defaults (the Python `float`
threshold is modelled as `Rat`). -/
structure VADConfig where
  enabled : Bool := true
  threshold : Rat := 0.5
  min_speech_duration_ms : Int := 250
  min_silence_duration_ms : Int := 700
deriving DecidableEq

/-- The aggregate `Config` dataclass. -/
structure Config where
  server : ServerConfig := {}
  whisper : WhisperConfig := {}
  vad : VADConfig := {}
deriving DecidableEq

/-- A scalar value appearing in the parsed YAML configuration document. -/
inductive YVal where
  | str (s : String)
  | int (n : Int)
  | bool (b : Bool)
  | float (q : Rat)
deriving DecidableEq

/-- A parsed YAML section: the mapping passed as `**kwargs` to a dataclass
constructor. -/
abbrev RawSection : Type := List (String × YVal)

/-- A parsed YAML configuration document, restricted to the three sections
`load_config` reads with `data.get(name, {})`; an absent section is the
empty mapping, exactly as in the code. -/
structure RawDoc where
  server : RawSection := []
  whisper : RawSection := []
  vad : RawSection := []

/-- First binding of a key in a section (YAML mappings have unique keys). -/
def lookupKey (sec : RawSection) (k : String) : Option YVal :=
  (sec.find? (fun p => p.1 == k)).map Prod.snd

/-- Errors raised during configuration loading: `unknownKey` models the
`TypeError` raised by dataclass `**kwargs` construction for an unexpected
keyword; `illTyped` marks a scalar whose YAML type does not match the
field (Python stores such values untyped — theorems about well-typed
documents never reach this branch). -/
inductive ConfigError where
  | unknownKey (secName : String)
  | illTyped (key : String)
deriving DecidableEq

/-- Extract a string field: absent keys keep the dataclass default. -/
def getStr (sec : RawSection) (k : String) (dflt : String) : Except ConfigError String :=
  match lookupKey sec k with
  | none => .ok dflt
  | some (.str s) => .ok s
  | some _ => .error (.illTyped k)

/-- Extract an integer field: absent keys keep the dataclass default. -/
def getInt (sec : RawSection) (k : String) (dflt : Int) : Except ConfigError Int :=
  match lookupKey sec k with
  | none => .ok dflt
  | some (.int n) => .ok n
  | some _ => .error (.illTyped k)

/-- Extract a boolean field: absent keys keep the dataclass default. -/
def getBool (sec : RawSection) (k : String) (dflt : Bool) : Except ConfigError Bool :=
  match lookupKey sec k with
  | none => .ok dflt
  | some (.bool b) => .ok b
  | some _ => .error (.illTyped k)

/-- Extract a float field: absent keys keep the dataclass default. -/
def getFloat (sec : RawSection) (k : String) (dflt : Rat) : Except ConfigError Rat :=
  match lookupKey sec k with
  | none => .ok dflt
  | some (.float q) => .ok q
  | some _ => .error (.illTyped k)

/-- The recognized keys of `ServerConfig`. -/
def serverKeys : List String := ["host", "port"]

/-- The recognized keys of `WhisperConfig`. -/
def whisperKeys : List String := ["model_path", "language", "threads"]

/-- The recognized keys of `VADConfig`. -/
def vadKeys : List String := ["enabled", "threshold", "min_speech_duration_ms", "min_silence_duration_ms"]

/-- Every key of the section is recognized (dataclass `**kwargs`
construction succeeds exactly when this holds). -/
def knownKeys (keys : List String) (sec : RawSection) : Bool :=
  sec.all (fun p => keys.contains p.1)

/-- `ServerConfig(**sec)`. -/
def mkServerConfig (sec : RawSection) : Except ConfigError ServerConfig :=
  if knownKeys serverKeys sec then
    match getStr sec "host" "0.0.0.0", getInt sec "port" 8005 with
    | .ok h, .ok p => .ok { host := h, port := p }
    | .error e, _ => .error e
    | .ok _, .error e => .error e
  else .error (.unknownKey "server")

/-- `WhisperConfig(**sec)`. -/
def mkWhisperConfig (sec : RawSection) : Except ConfigError WhisperConfig :=
  if knownKeys whisperKeys sec then
    match getStr sec "model_path" "models/ggml-base.bin",
          getStr sec "language" "en", getInt sec "threads" 4 with
    | .ok m, .ok l, .ok t => .ok { model_path := m, language := l, threads := t }
    | .error e, _, _ => .error e
    | .ok _, .error e, _ => .error e
    | .ok _, .ok _, .error e => .error e
  else .error (.unknownKey "whisper")

/-- `VADConfig(**sec)`. -/
def mkVADConfig (sec : RawSection) : Except ConfigError VADConfig :=
  if knownKeys vadKeys sec then
    match getBool sec "enabled" true, getFloat sec "threshold" 0.5,
          getInt sec "min_speech_duration_ms" 250,
          getInt sec "min_silence_duration_ms" 700 with
    | .ok e, .ok th, .ok sp, .ok si =>
      .ok { enabled := e, threshold := th,
            min_speech_duration_ms := sp, min_silence_duration_ms := si }
    | .error e, _, _, _ => .error e
    | .ok _, .error e, _, _ => .error e
    | .ok _, .ok _, .error e, _ => .error e
    | .ok _, .ok _, .ok _, .error e => .error e
  else .error (.unknownKey "vad")

/-- `load_config` (config.py lines 37-51): `none` models an absent file
(the existence check fails and `Config()` of all defaults is returned);
`some doc` models a file that exists and parsed to `doc` (an empty file
parses to `None`, replaced by `{}`, i.e. the document with three empty
sections). -/
def load_config (doc : Option RawDoc) : Except ConfigError Config :=
  match doc with
  | none => .ok {}
  | some d =>
    match mkServerConfig d.server with
    | .error e => .error e
    | .ok s =>
      match mkWhisperConfig d.whisper with
      | .error e => .error e
      | .ok w =>
        match mkVADConfig d.vad with
        | .error e => .error e
        | .ok v => .ok { server := s, whisper := w, vad := v }

/-! ## Transcription service (transcription.py) -/

/-- `TranscriptionResult` dataclass.  Segment contents never occur in the
code (the field is always `None`), so elements are modelled as strings. -/
structure TranscriptionResult where
  text : String
  language : String
  duration_ms : Rat
  segments : Option (List String)
deriving DecidableEq

/-- Errors escaping `Transcriber.transcribe`: `timeoutExpired` is
`subprocess.TimeoutExpired`, `runtimeError` is the `RuntimeError` raised
on a non-zero exit status. -/
inductive TranscriptionError where
  | timeoutExpired
  | runtimeError (msg : String)
deriving DecidableEq

/-- Outcome of one child-process run: completion with exit code and the
captured output streams, or expiry of the timeout. -/
inductive EngineOutcome where
  | completed (returncode : Int) (stdout stderr : String)
  | timeout
deriving DecidableEq

/-- The black-box engine: maps the argument list and the timeout (seconds)
passed to `subprocess.run` to the outcome of the run. -/
def Engine : Type := List String → Nat → EngineOutcome

/-- The error raised by `Transcriber.__init__` when the model file is
missing (`FileNotFoundError`). -/
inductive TranscriberInitError where
  | modelNotFound (resolvedPath : String)
deriving DecidableEq

/-- The `Transcriber` object: resolved absolute model path plus the two
configuration references. -/
structure Transcriber where
  model_path : String
  config : WhisperConfig
  vad_config : VADConfig
deriving DecidableEq

/-- `Transcriber.__init__` (transcription.py lines 25-37): `resolve`
models `Path.resolve` (absolute-path resolution), `fs` the set of paths
existing on disk.  Fails with `FileNotFoundError` when the resolved model
path does not exist. -/
def mkTranscriber (resolve : String → String) (fs : List String)
    (model_path : String) (whisper_config : WhisperConfig)
    (vad_config : VADConfig) : Except TranscriberInitError Transcriber :=
  let resolved := resolve model_path
  if fs.contains resolved then
    .ok { model_path := resolved, config := whisper_config, vad_config := vad_config }
  else
    .error (.modelNotFound resolved)

/-- `language = language or self.config.language` (transcription.py line
50): the override is used when provided and non-empty (Python string
truthiness), else the configured default. -/
def effLang (cfg : WhisperConfig) (language : Option String) : String :=
  match language with
  | some l => if l = "" then cfg.language else l
  | none => cfg.language

/-- The four VAD arguments appended when `vad_config.enabled` holds
(transcription.py lines 70-76). -/
def vadArgs (v : VADConfig) : List String :=
  ["--vad", "-vt", toString v.threshold,
   "-vspd", toString v.min_speech_duration_ms,
   "-vsd", toString v.min_silence_duration_ms]

/-- The option strings that only the VAD block introduces. -/
def vadFlagNames : List String := ["--vad", "-vt", "-vspd", "-vsd"]

/-- The `whisper-cli` argument list built by `transcribe` (transcription.py
lines 59-78): fixed flags, conditional VAD block, temporary file path
last. -/
def buildCmd (t : Transcriber) (language : String) (temp_path : String) : List String :=
  "whisper-cli" :: "-m" :: t.model_path :: "-l" :: language ::
    "-t" :: toString t.config.threads :: "--no-timestamps" :: "-np" ::
    ((if t.vad_config.enabled then vadArgs t.vad_config else []) ++ [temp_path])

/-- `Path(temp_path).unlink(missing_ok=True)`: remove the path from the
file system; a missing path is a silent no-op (the function is total and
never fails). -/
def unlinkMissingOk (fs : List String) (p : String) : List String :=
  fs.filter (fun q => q != p)

/-- The timeout (seconds) passed to `subprocess.run` (transcription.py
line 85). -/
def engineTimeoutSeconds : Nat := 60

/-- `Transcriber.transcribe` (transcription.py lines 38-107).  The audio
bytes are written to the fresh temporary file `temp_path` (its contents
never influence the modelled behaviour); the engine is run on the built
command with the 60-second timeout; the `finally` block unlinks the
temporary file on every exit path, so the returned file system is the
unlink result for success, engine failure and timeout alike. -/
def Transcriber.transcribe (t : Transcriber) (run : Engine) (temp_path : String)
    (fs : List String) (audio_data : List Nat) (language : Option String) :
    Except TranscriptionError TranscriptionResult × List String :=
  let lang := effLang t.config language
  let fs1 := temp_path :: fs
  let res : Except TranscriptionError TranscriptionResult :=
    match run (buildCmd t lang temp_path) engineTimeoutSeconds with
    | .timeout => .error .timeoutExpired
    | .completed rc out err =>
      if rc ≠ 0 then .error (.runtimeError ("whisper-cli failed: " ++ err))
      else .ok { text := cleanOutput out, language := lang,
                 duration_ms := 0, segments := none }
  (res, unlinkMissingOk fs1 temp_path)

/-! ## HTTP handler (server.py) -/

/-- An HTTP response: status code and body detail/text. -/
structure HttpResponse where
  status : Nat
  body : String
deriving DecidableEq

/-- The detail string produced by the exception mapping of the handler
(server.py lines 98-105): a `RuntimeError` message is forwarded as-is; a
`TimeoutExpired` falls into the generic `except Exception` arm whose
detail is `"Transcription failed: " + str(e)` (the exact `str` of the
exception is summarized, no claim depends on it). -/
def errDetail : TranscriptionError → String
  | .runtimeError m => m
  | .timeoutExpired => "Transcription failed: timed out after 60 seconds"

/-- The `POST /v1/audio/transcriptions` handler (server.py lines 72-105):
503 when the global transcriber is still `None`, then 400 on an empty
uploaded body, then the transcription call mapped to 200/500. -/
def handleTranscription (tr : Option Transcriber) (run : Engine)
    (temp_path : String) (fs : List String) (file : List Nat)
    (language : Option String) : HttpResponse × List String :=
  match tr with
  | none => ({ status := 503, body := "Model not loaded" }, fs)
  | some t =>
    if file.length = 0 then ({ status := 400, body := "Empty audio file" }, fs)
    else
      match t.transcribe run temp_path fs file language with
      | (.ok r, fs1) => ({ status := 200, body := r.text }, fs1)
      | (.error e, fs1) => ({ status := 500, body := errDetail e }, fs1)

/-! ## Spec-side definitions for claim C2 (refinement comparison)

These follow the specification's words, not the code: timestamp markup of
the exact shape `[hh:mm:ss.mmm --> hh:mm:ss.mmm]` is removed, nothing
else, and no whitespace outside the brackets is touched. -/

/-- A character list of the exact shape `dd:dd:dd.ddd`. -/
def isHMS (l : List Char) : Bool :=
  match l with
  | [a, b, ':', c, d, ':', e, f, '.', g, h, i] =>
    a.isDigit && b.isDigit && c.isDigit && d.isDigit &&
      e.isDigit && f.isDigit && g.isDigit && h.isDigit && i.isDigit
  | _ => false

/-- Modelled from the spec: match exactly
`[hh:mm:ss.mmm --> hh:mm:ss.mmm]` (single spaces around the arrow, no
trailing whitespace consumed) at the head of the input. -/
def matchStrictTs (l : List Char) : Option (List Char) :=
  match l with
  | [] => none
  | c :: rest =>
    if c = '[' then
      if isHMS (rest.take 12) then
        match rest.drop 12 with
        | ' ' :: '-' :: '-' :: '>' :: ' ' :: r2 =>
          if isHMS (r2.take 12) then
            match r2.drop 12 with
            | ']' :: r3 => some r3
            | _ => none
          else none
        | _ => none
      else none
    else none

/-- Modelled from the spec: remove every occurrence of the exact markup
shape, preserving all other characters. -/
def specStripTs (l : List Char) : List Char :=
  scanStripAux matchStrictTs l.length l

/-- Modelled from the spec (claim C2's words): trim, remove the exact
timestamp-range markup occurrences, trim again, with no other whitespace
change. -/
def specClean (s : String) : String :=
  String.mk (pyStripL (specStripTs (pyStripL s.data)))

/-! ## Structured decomposition of engine output for the amended C2 -/

/-- A timestamp markup token as the code's regex accepts it: `[`, a
nonempty digit/colon/dot run, optional whitespace, `-->`, optional
whitespace, a nonempty digit/colon/dot run, `]`. -/
structure TsMarkup where
  d1 : List Char
  w1 : List Char
  w2 : List Char
  d2 : List Char

/-- Render the markup token to characters. -/
def TsMarkup.render (m : TsMarkup) : List Char :=
  '[' :: (m.d1 ++ m.w1 ++ ('-' :: '-' :: '>' :: (m.w2 ++ m.d2 ++ [']'])))

/-- Well-formedness of a markup token. -/
def TsMarkup.WFtok (m : TsMarkup) : Prop :=
  m.d1 ≠ [] ∧ m.d1.all isTsChar = true ∧ m.w1.all isSpaceChar = true ∧
    m.w2.all isSpaceChar = true ∧ m.d2 ≠ [] ∧ m.d2.all isTsChar = true

instance (m : TsMarkup) : Decidable m.WFtok := by
  unfold TsMarkup.WFtok
  infer_instance

/-- Interleave an initial fragment with markup-fragment pairs: the full
engine stdout. -/
def interleave (t0 : List Char) (parts : List (TsMarkup × List Char)) : List Char :=
  t0 ++ (parts.map (fun p => p.1.render ++ p.2)).flatten

/-- What the code leaves of the interleaving: the fragments, each with the
whitespace that immediately followed its preceding markup removed. -/
def interleaveStripped (t0 : List Char) (parts : List (TsMarkup × List Char)) : List Char :=
  t0 ++ (parts.map (fun p => p.2.dropWhile isSpaceChar)).flatten

/-! ## Well-typedness of configuration documents

Python's dataclasses store whatever scalar the YAML held without a type
check; the Lean fields are typed, so theorems about `load_config` carry a
well-typedness hypothesis restricting attention to documents whose present
scalars have the field's type. -/

/-- The key, if present, holds a string. -/
def tyStr (sec : RawSection) (k : String) : Bool :=
  match lookupKey sec k with
  | none => true
  | some (.str _) => true
  | some _ => false

/-- The key, if present, holds an integer. -/
def tyInt (sec : RawSection) (k : String) : Bool :=
  match lookupKey sec k with
  | none => true
  | some (.int _) => true
  | some _ => false

/-- The key, if present, holds a boolean. -/
def tyBool (sec : RawSection) (k : String) : Bool :=
  match lookupKey sec k with
  | none => true
  | some (.bool _) => true
  | some _ => false

/-- The key, if present, holds a float. -/
def tyFloat (sec : RawSection) (k : String) : Bool :=
  match lookupKey sec k with
  | none => true
  | some (.float _) => true
  | some _ => false

/-- All present scalars of the `server` section have their field's type. -/
def wellTypedServer (sec : RawSection) : Bool :=
  tyStr sec "host" && tyInt sec "port"

/-- All present scalars of the `whisper` section have their field's type. -/
def wellTypedWhisper (sec : RawSection) : Bool :=
  tyStr sec "model_path" && tyStr sec "language" && tyInt sec "threads"

/-- All present scalars of the `vad` section have their field's type. -/
def wellTypedVad (sec : RawSection) : Bool :=
  tyBool sec "enabled" && tyFloat sec "threshold" &&
    tyInt sec "min_speech_duration_ms" && tyInt sec "min_silence_duration_ms"

/-- A valid configuration document: every key recognized, every scalar of
the field's type. -/
def validDoc (d : RawDoc) : Bool :=
  knownKeys serverKeys d.server && wellTypedServer d.server &&
    knownKeys whisperKeys d.whisper && wellTypedWhisper d.whisper &&
    knownKeys vadKeys d.vad && wellTypedVad d.vad

/-- A string field is the source's explicit value or the default. -/
def fieldSpecStr (sec : RawSection) (k : String) (v dflt : String) : Prop :=
  lookupKey sec k = some (.str v) ∨ (lookupKey sec k = none ∧ v = dflt)

/-- An integer field is the source's explicit value or the default. -/
def fieldSpecInt (sec : RawSection) (k : String) (v dflt : Int) : Prop :=
  lookupKey sec k = some (.int v) ∨ (lookupKey sec k = none ∧ v = dflt)

/-- A boolean field is the source's explicit value or the default. -/
def fieldSpecBool (sec : RawSection) (k : String) (v dflt : Bool) : Prop :=
  lookupKey sec k = some (.bool v) ∨ (lookupKey sec k = none ∧ v = dflt)

/-- A float field is the source's explicit value or the default. -/
def fieldSpecFloat (sec : RawSection) (k : String) (v dflt : Rat) : Prop :=
  lookupKey sec k = some (.float v) ∨ (lookupKey sec k = none ∧ v = dflt)

/-- Every field of the loaded `Config` is the source's explicit value or
the documented default. -/
def configFieldSpec (d : RawDoc) (c : Config) : Prop :=
  fieldSpecStr d.server "host" c.server.host "0.0.0.0" ∧
  fieldSpecInt d.server "port" c.server.port 8005 ∧
  fieldSpecStr d.whisper "model_path" c.whisper.model_path "models/ggml-base.bin" ∧
  fieldSpecStr d.whisper "language" c.whisper.language "en" ∧
  fieldSpecInt d.whisper "threads" c.whisper.threads 4 ∧
  fieldSpecBool d.vad "enabled" c.vad.enabled true ∧
  fieldSpecFloat d.vad "threshold" c.vad.threshold 0.5 ∧
  fieldSpecInt d.vad "min_speech_duration_ms" c.vad.min_speech_duration_ms 250 ∧
  fieldSpecInt d.vad "min_silence_duration_ms" c.vad.min_silence_duration_ms 700

/-! ## Lemmas about the scanner -/

theorem dropWhile_len_le (p : Char → Bool) (l : List Char) :
    (l.dropWhile p).length ≤ l.length := by
  induction l with
  | nil => simp
  | cons a l ih =>
    rw [List.dropWhile_cons]
    split
    · exact Nat.le_trans ih (Nat.le_succ _)
    · exact Nat.le_refl _

theorem matchArrow_some_len {l r : List Char} (h : matchArrow l = some r) :
    r.length + 3 = l.length := by
  unfold matchArrow at h
  split at h
  · split at h
    · cases h
      simp
    · exact absurd h (by simp)
  · exact absurd h (by simp)

theorem matchClose_some_len {l r : List Char} (h : matchClose l = some r) :
    r.length < l.length := by
  unfold matchClose at h
  split at h
  · split at h
    · cases h
      rename_i c r5 _
      have := dropWhile_len_le isSpaceChar r5
      simp only [List.length_cons]
      omega
    · exact absurd h (by simp)
  · exact absurd h (by simp)

theorem matchBracketBody_some_len {l r : List Char} (h : matchBracketBody l = some r) :
    r.length < l.length := by
  unfold matchBracketBody at h
  split at h
  · exact absurd h (by simp)
  · cases harr : matchArrow ((l.dropWhile isTsChar).dropWhile isSpaceChar) with
    | none => rw [harr] at h; exact absurd h (by simp)
    | some r3 =>
      rw [harr, Option.some_bind] at h
      split at h
      · exact absurd h (by simp)
      · have l1 := matchClose_some_len h
        have l2 : ((r3.dropWhile isSpaceChar).dropWhile isTsChar).length ≤ r3.length :=
          Nat.le_trans (dropWhile_len_le _ _) (dropWhile_len_le _ _)
        have l4 := matchArrow_some_len harr
        have l5 : ((l.dropWhile isTsChar).dropWhile isSpaceChar).length ≤ l.length :=
          Nat.le_trans (dropWhile_len_le _ _) (dropWhile_len_le _ _)
        omega

theorem matchTs_some_len {l r : List Char} (h : matchTs l = some r) :
    r.length < l.length := by
  unfold matchTs at h
  split at h
  · exact absurd h (by simp)
  · split at h
    · rename_i c rest _ _
      have := matchBracketBody_some_len h
      simp only [List.length_cons]
      omega
    · exact absurd h (by simp)

theorem scanStripAux_congr (f : List Char → Option (List Char))
    (hf : ∀ l r, f l = some r → r.length < l.length) :
    ∀ (n m : Nat) (l : List Char), l.length ≤ n → l.length ≤ m →
      scanStripAux f n l = scanStripAux f m l := by
  intro n
  induction n with
  | zero =>
    intro m l hn _
    have : l = [] := List.eq_nil_of_length_eq_zero (Nat.le_zero.mp hn)
    subst this
    cases m <;> rfl
  | succ n ih =>
    intro m l hn hm
    cases l with
    | nil => cases m <;> rfl
    | cons c cs =>
      cases m with
      | zero => simp at hm
      | succ m =>
        simp only [List.length_cons] at hn hm
        simp only [scanStripAux]
        cases hfc : f (c :: cs) with
        | some r =>
          have hr := hf _ _ hfc
          simp only [List.length_cons] at hr
          exact ih m r (by omega) (by omega)
        | none =>
          rw [ih m cs (by omega) (by omega)]

theorem stripTs_eq_scan {n : Nat} {l : List Char} (h : l.length ≤ n) :
    scanStripAux matchTs n l = stripTs l :=
  scanStripAux_congr matchTs (fun _ _ => matchTs_some_len) n l.length l h (Nat.le_refl _)

theorem stripTs_of_match {l r : List Char} (h : matchTs l = some r) :
    stripTs l = stripTs r := by
  cases l with
  | nil => simp [matchTs] at h
  | cons c cs =>
    have hlen := matchTs_some_len h
    simp only [List.length_cons] at hlen
    unfold stripTs
    simp only [List.length_cons, scanStripAux, h]
    exact stripTs_eq_scan (by omega)

theorem stripTs_cons_none {c : Char} {cs : List Char} (h : matchTs (c :: cs) = none) :
    stripTs (c :: cs) = c :: stripTs cs := by
  unfold stripTs
  simp only [List.length_cons, scanStripAux, h]

theorem matchTs_cons_ne {c : Char} (h : c ≠ '[') (l : List Char) :
    matchTs (c :: l) = none := by
  simp [matchTs, h]

theorem stripTs_append_nb {t0 : List Char} (h : '[' ∉ t0) (rest : List Char) :
    stripTs (t0 ++ rest) = t0 ++ stripTs rest := by
  induction t0 with
  | nil => simp
  | cons c cs ih =>
    have hc : c ≠ '[' := fun he => h (he ▸ List.mem_cons_self c cs)
    rw [List.cons_append, stripTs_cons_none (matchTs_cons_ne hc _),
      ih (fun hm => h (List.mem_cons_of_mem _ hm)), List.cons_append]

theorem takeWhile_append_all (p : Char → Bool) {A : List Char}
    (hA : A.all p = true) (B : List Char) :
    (A ++ B).takeWhile p = A ++ B.takeWhile p := by
  induction A with
  | nil => simp
  | cons a A ih =>
    simp only [List.all_cons, Bool.and_eq_true] at hA
    rw [List.cons_append, List.takeWhile_cons, if_pos hA.1, ih hA.2, List.cons_append]

theorem dropWhile_append_all (p : Char → Bool) {A : List Char}
    (hA : A.all p = true) (B : List Char) :
    (A ++ B).dropWhile p = B.dropWhile p := by
  induction A with
  | nil => simp
  | cons a A ih =>
    simp only [List.all_cons, Bool.and_eq_true] at hA
    rw [List.cons_append, List.dropWhile_cons, if_pos hA.1, ih hA.2]

theorem dropWhile_all_append_cons (p : Char → Bool) {A : List Char}
    (hA : A.all p = true) {c : Char} (hc : p c = false) (B : List Char) :
    (A ++ c :: B).dropWhile p = c :: B := by
  rw [dropWhile_append_all p hA, List.dropWhile_cons, if_neg (by simp [hc])]

theorem takeWhile_all_append_cons (p : Char → Bool) {A : List Char}
    (hA : A.all p = true) {c : Char} (hc : p c = false) (B : List Char) :
    (A ++ c :: B).takeWhile p = A := by
  rw [takeWhile_append_all p hA, List.takeWhile_cons, if_neg (by simp [hc])]
  simp

theorem space_not_ts {c : Char} (h : isSpaceChar c = true) : isTsChar c = false := by
  simp only [isSpaceChar, Bool.or_eq_true, beq_iff_eq] at h
  rcases h with ((((rfl | rfl) | rfl) | rfl) | rfl) | rfl <;> decide

theorem ts_not_space {c : Char} (h : isTsChar c = true) : isSpaceChar c = false := by
  cases hs : isSpaceChar c with
  | false => rfl
  | true => rw [space_not_ts hs] at h; exact absurd h (by simp)

theorem takeWhile_ts_space_arrow {w : List Char} (hw : w.all isSpaceChar = true)
    (Z : List Char) : (w ++ '-' :: Z).takeWhile isTsChar = [] := by
  cases w with
  | nil => rw [List.nil_append, List.takeWhile_cons, if_neg (by decide)]
  | cons a w =>
    simp only [List.all_cons, Bool.and_eq_true] at hw
    rw [List.cons_append, List.takeWhile_cons, if_neg (by simp [space_not_ts hw.1])]

theorem dropWhile_ts_space_arrow {w : List Char} (hw : w.all isSpaceChar = true)
    (Z : List Char) : (w ++ '-' :: Z).dropWhile isTsChar = w ++ '-' :: Z := by
  cases w with
  | nil => rw [List.nil_append, List.dropWhile_cons, if_neg (by decide)]
  | cons a w =>
    simp only [List.all_cons, Bool.and_eq_true] at hw
    rw [List.cons_append, List.dropWhile_cons, if_neg (by simp [space_not_ts hw.1])]

theorem matchTs_render (m : TsMarkup) (hm : m.WFtok) (rest : List Char) :
    matchTs (m.render ++ rest) = some (rest.dropWhile isSpaceChar) := by
  obtain ⟨md1, mw1, mw2, md2⟩ := m
  obtain ⟨h1, h1a, hw1, hw2, h2, h2a⟩ := hm
  simp only at h1 h1a hw1 hw2 h2 h2a
  obtain ⟨a, d1, rfl⟩ := List.exists_cons_of_ne_nil h1
  obtain ⟨b, d2, rfl⟩ := List.exists_cons_of_ne_nil h2
  have hb : TsMarkup.render ⟨a :: d1, mw1, mw2, b :: d2⟩ ++ rest =
      '[' :: ((a :: d1) ++ (mw1 ++ ('-' :: '-' :: '>' ::
        (mw2 ++ ((b :: d2) ++ (']' :: rest)))))) := by
    simp [TsMarkup.render, List.append_assoc]
  rw [hb]
  have hts : isTsChar b = true := by
    simp only [List.all_cons, Bool.and_eq_true] at h2a
    exact h2a.1
  have e1 : (((a :: d1) ++ (mw1 ++ ('-' :: '-' :: '>' ::
      (mw2 ++ ((b :: d2) ++ (']' :: rest)))))).takeWhile isTsChar) = a :: d1 := by
    rw [takeWhile_append_all _ h1a, takeWhile_ts_space_arrow hw1, List.append_nil]
  have e2 : (((a :: d1) ++ (mw1 ++ ('-' :: '-' :: '>' ::
      (mw2 ++ ((b :: d2) ++ (']' :: rest)))))).dropWhile isTsChar) =
      mw1 ++ ('-' :: '-' :: '>' :: (mw2 ++ ((b :: d2) ++ (']' :: rest)))) := by
    rw [dropWhile_append_all _ h1a, dropWhile_ts_space_arrow hw1]
  have e3 : ((mw1 ++ ('-' :: '-' :: '>' ::
      (mw2 ++ ((b :: d2) ++ (']' :: rest))))).dropWhile isSpaceChar) =
      '-' :: '-' :: '>' :: (mw2 ++ ((b :: d2) ++ (']' :: rest))) :=
    dropWhile_all_append_cons _ hw1 (by decide) _
  have e5 : ((mw2 ++ ((b :: d2) ++ (']' :: rest))).dropWhile isSpaceChar) =
      (b :: d2) ++ (']' :: rest) := by
    rw [List.cons_append]
    exact dropWhile_all_append_cons _ hw2 (ts_not_space hts) _
  have e6 : (((b :: d2) ++ (']' :: rest)).takeWhile isTsChar) = b :: d2 :=
    takeWhile_all_append_cons _ h2a (by decide) _
  have e7 : (((b :: d2) ++ (']' :: rest)).dropWhile isTsChar) = ']' :: rest :=
    dropWhile_all_append_cons _ h2a (by decide) _
  rw [matchTs]
  simp only [reduceIte]
  unfold matchBracketBody
  rw [e1, e2, e3]
  rw [show matchArrow ('-' :: '-' :: '>' :: (mw2 ++ ((b :: d2) ++ (']' :: rest)))) =
    some (mw2 ++ ((b :: d2) ++ (']' :: rest))) from by simp [matchArrow]]
  rw [Option.some_bind]
  rw [show (mw2 ++ ((b :: d2) ++ (']' :: rest))).dropWhile isSpaceChar =
    (b :: d2) ++ (']' :: rest) from e5]
  rw [e6, e7]
  simp [matchClose]

theorem dropWhile_append_keep (p : Char → Bool) {B : List Char}
    (hB : B.dropWhile p = B) (A : List Char) :
    (A ++ B).dropWhile p = A.dropWhile p ++ B := by
  induction A with
  | nil => simpa using hB
  | cons a A ih =>
    rw [List.cons_append, List.dropWhile_cons, List.dropWhile_cons]
    split
    · exact ih
    · rw [List.cons_append]

theorem flatten_render_dropWhile_stable (parts : List (TsMarkup × List Char)) :
    ((parts.map (fun p => p.1.render ++ p.2)).flatten).dropWhile isSpaceChar =
      (parts.map (fun p => p.1.render ++ p.2)).flatten := by
  cases parts with
  | nil => rfl
  | cons q qs =>
    simp only [List.map_cons, List.flatten_cons, TsMarkup.render, List.cons_append,
      List.append_assoc]
    rw [List.dropWhile_cons, if_neg (by decide)]

theorem not_mem_dropWhile {c : Char} {l : List Char} (p : Char → Bool) (h : c ∉ l) :
    c ∉ l.dropWhile p :=
  fun hm => h ((List.dropWhile_sublist p).subset hm)

theorem stripTs_interleave :
    ∀ (parts : List (TsMarkup × List Char)) (t0 : List Char), '[' ∉ t0 →
      (∀ q ∈ parts, q.1.WFtok ∧ '[' ∉ q.2) →
      stripTs (interleave t0 parts) = interleaveStripped t0 parts := by
  intro parts
  induction parts with
  | nil =>
    intro t0 h0 _
    have := stripTs_append_nb h0 []
    simpa [interleave, interleaveStripped, show stripTs [] = [] from rfl] using this
  | cons q qs ih =>
    intro t0 h0 hq
    obtain ⟨m, t1⟩ := q
    have hm := (hq _ (List.mem_cons_self _ _)).1
    have ht1 := (hq _ (List.mem_cons_self _ _)).2
    have hqs : ∀ q ∈ qs, q.1.WFtok ∧ '[' ∉ q.2 :=
      fun q hmem => hq q (List.mem_cons_of_mem _ hmem)
    have step1 : interleave t0 ((m, t1) :: qs) =
        t0 ++ (m.render ++ (t1 ++ (qs.map (fun p => p.1.render ++ p.2)).flatten)) := by
      simp [interleave, List.append_assoc]
    rw [step1, stripTs_append_nb h0,
      stripTs_of_match (matchTs_render m hm _)]
    rw [dropWhile_append_keep isSpaceChar (flatten_render_dropWhile_stable qs) t1]
    rw [show t1.dropWhile isSpaceChar ++ (qs.map (fun p => p.1.render ++ p.2)).flatten =
      interleave (t1.dropWhile isSpaceChar) qs from rfl]
    rw [ih (t1.dropWhile isSpaceChar) (not_mem_dropWhile _ ht1) hqs]
    simp [interleaveStripped, List.append_assoc]

/-! ## Lemmas about the configuration loader -/

theorem getStr_ok {sec : RawSection} {k : String} (h : tyStr sec k = true)
    (dflt : String) :
    ∃ s, getStr sec k dflt = .ok s ∧ fieldSpecStr sec k s dflt := by
  cases hl : lookupKey sec k with
  | none => exact ⟨dflt, by simp [getStr, hl], Or.inr ⟨hl, rfl⟩⟩
  | some v =>
    cases v with
    | str s => exact ⟨s, by simp [getStr, hl], Or.inl hl⟩
    | int n => simp [tyStr, hl] at h
    | bool b => simp [tyStr, hl] at h
    | float q => simp [tyStr, hl] at h

theorem getInt_ok {sec : RawSection} {k : String} (h : tyInt sec k = true)
    (dflt : Int) :
    ∃ n, getInt sec k dflt = .ok n ∧ fieldSpecInt sec k n dflt := by
  cases hl : lookupKey sec k with
  | none => exact ⟨dflt, by simp [getInt, hl], Or.inr ⟨hl, rfl⟩⟩
  | some v =>
    cases v with
    | int n => exact ⟨n, by simp [getInt, hl], Or.inl hl⟩
    | str s => simp [tyInt, hl] at h
    | bool b => simp [tyInt, hl] at h
    | float q => simp [tyInt, hl] at h

theorem getBool_ok {sec : RawSection} {k : String} (h : tyBool sec k = true)
    (dflt : Bool) :
    ∃ b, getBool sec k dflt = .ok b ∧ fieldSpecBool sec k b dflt := by
  cases hl : lookupKey sec k with
  | none => exact ⟨dflt, by simp [getBool, hl], Or.inr ⟨hl, rfl⟩⟩
  | some v =>
    cases v with
    | bool b => exact ⟨b, by simp [getBool, hl], Or.inl hl⟩
    | str s => simp [tyBool, hl] at h
    | int n => simp [tyBool, hl] at h
    | float q => simp [tyBool, hl] at h

theorem getFloat_ok {sec : RawSection} {k : String} (h : tyFloat sec k = true)
    (dflt : Rat) :
    ∃ q, getFloat sec k dflt = .ok q ∧ fieldSpecFloat sec k q dflt := by
  cases hl : lookupKey sec k with
  | none => exact ⟨dflt, by simp [getFloat, hl], Or.inr ⟨hl, rfl⟩⟩
  | some v =>
    cases v with
    | float q => exact ⟨q, by simp [getFloat, hl], Or.inl hl⟩
    | str s => simp [tyFloat, hl] at h
    | int n => simp [tyFloat, hl] at h
    | bool b => simp [tyFloat, hl] at h

theorem mkServerConfig_spec {sec : RawSection} (hk : knownKeys serverKeys sec = true)
    (ht : wellTypedServer sec = true) :
    ∃ c : ServerConfig, mkServerConfig sec = .ok c ∧
      fieldSpecStr sec "host" c.host "0.0.0.0" ∧
      fieldSpecInt sec "port" c.port 8005 := by
  simp only [wellTypedServer, Bool.and_eq_true] at ht
  obtain ⟨hv, e1, h1⟩ := getStr_ok ht.1 "0.0.0.0"
  obtain ⟨pv, e2, h2⟩ := getInt_ok ht.2 8005
  exact ⟨⟨hv, pv⟩, by simp [mkServerConfig, hk, e1, e2], h1, h2⟩

theorem mkWhisperConfig_spec {sec : RawSection} (hk : knownKeys whisperKeys sec = true)
    (ht : wellTypedWhisper sec = true) :
    ∃ c : WhisperConfig, mkWhisperConfig sec = .ok c ∧
      fieldSpecStr sec "model_path" c.model_path "models/ggml-base.bin" ∧
      fieldSpecStr sec "language" c.language "en" ∧
      fieldSpecInt sec "threads" c.threads 4 := by
  simp only [wellTypedWhisper, Bool.and_eq_true] at ht
  obtain ⟨mv, e1, h1⟩ := getStr_ok ht.1.1 "models/ggml-base.bin"
  obtain ⟨lv, e2, h2⟩ := getStr_ok ht.1.2 "en"
  obtain ⟨tv, e3, h3⟩ := getInt_ok ht.2 4
  exact ⟨⟨mv, lv, tv⟩, by simp [mkWhisperConfig, hk, e1, e2, e3], h1, h2, h3⟩

theorem mkVADConfig_spec {sec : RawSection} (hk : knownKeys vadKeys sec = true)
    (ht : wellTypedVad sec = true) :
    ∃ c : VADConfig, mkVADConfig sec = .ok c ∧
      fieldSpecBool sec "enabled" c.enabled true ∧
      fieldSpecFloat sec "threshold" c.threshold 0.5 ∧
      fieldSpecInt sec "min_speech_duration_ms" c.min_speech_duration_ms 250 ∧
      fieldSpecInt sec "min_silence_duration_ms" c.min_silence_duration_ms 700 := by
  simp only [wellTypedVad, Bool.and_eq_true] at ht
  obtain ⟨ev, e1, h1⟩ := getBool_ok ht.1.1.1 true
  obtain ⟨thv, e2, h2⟩ := getFloat_ok ht.1.1.2 0.5
  obtain ⟨spv, e3, h3⟩ := getInt_ok ht.1.2 250
  obtain ⟨siv, e4, h4⟩ := getInt_ok ht.2 700
  exact ⟨⟨ev, thv, spv, siv⟩, by simp [mkVADConfig, hk, e1, e2, e3, e4], h1, h2, h3, h4⟩

theorem mkServerConfig_err {sec : RawSection} (hk : knownKeys serverKeys sec = false) :
    mkServerConfig sec = .error (.unknownKey "server") := by
  simp [mkServerConfig, hk]

theorem mkWhisperConfig_err {sec : RawSection} (hk : knownKeys whisperKeys sec = false) :
    mkWhisperConfig sec = .error (.unknownKey "whisper") := by
  simp [mkWhisperConfig, hk]

theorem mkVADConfig_err {sec : RawSection} (hk : knownKeys vadKeys sec = false) :
    mkVADConfig sec = .error (.unknownKey "vad") := by
  simp [mkVADConfig, hk]

/-! ## Claim theorems -/

/-- C1: for every call to `transcribe` (any transcriber, engine behaviour,
audio bytes and language argument — the universally quantified engine
covers success, non-zero exit and timeout alike), the temporary audio file
is absent from the file system returned by the call, and unlinking an
already-missing file is a silent no-op that leaves the file system
unchanged (and raises no error, `unlinkMissingOk` being total). -/
theorem transcribe_deletes_temp_file (t : Transcriber) (run : Engine)
    (temp_path : String) (fs : List String) (audio_data : List Nat)
    (language : Option String) :
    temp_path ∉ (t.transcribe run temp_path fs audio_data language).2 ∧
      (temp_path ∉ fs → unlinkMissingOk fs temp_path = fs) := by
  constructor
  · show temp_path ∉ unlinkMissingOk (temp_path :: fs) temp_path
    simp [unlinkMissingOk, List.mem_filter]
  · intro h
    apply List.filter_eq_self.mpr
    intro a ha
    simp only [bne_iff_ne, ne_eq]
    rintro rfl
    exact h ha

/-- Witness for C1 at a concrete transcriber, engine and file system. -/
theorem transcribe_deletes_temp_file_witness :
    ("/tmp/audio.wav" ∉ (Transcriber.transcribe
        { model_path := "/models/ggml-base.bin", config := {}, vad_config := {} }
        (fun _ _ => .completed 0 "hello" "") "/tmp/audio.wav" [] [0, 1] none).2) ∧
      ("/tmp/audio.wav" : String) ∉ ([] : List String) ∧
      unlinkMissingOk [] "/tmp/audio.wav" = [] :=
  ⟨(transcribe_deletes_temp_file
      { model_path := "/models/ggml-base.bin", config := {}, vad_config := {} }
      (fun _ _ => .completed 0 "hello" "") "/tmp/audio.wav" [] [0, 1] none).1,
   by simp,
   (transcribe_deletes_temp_file
      { model_path := "/models/ggml-base.bin", config := {}, vad_config := {} }
      (fun _ _ => .completed 0 "hello" "") "/tmp/audio.wav" [] [0, 1] none).2 (by simp)⟩

/-- C9: constructing a `Transcriber` whose resolved model path does not
exist on disk always fails with the model-not-found error and never
produces a `Transcriber` (so no transcription call can ever be served). -/
theorem mkTranscriber_missing_model (resolve : String → String) (fs : List String)
    (model_path : String) (wcfg : WhisperConfig) (vcfg : VADConfig)
    (h : resolve model_path ∉ fs) :
    mkTranscriber resolve fs model_path wcfg vcfg =
      .error (.modelNotFound (resolve model_path)) ∧
    ∀ t, mkTranscriber resolve fs model_path wcfg vcfg ≠ .ok t := by
  constructor
  · simp [mkTranscriber, h]
  · intro t ht
    simp [mkTranscriber, h] at ht

/-- Witness for C9: an empty file system and the identity resolver. -/
theorem mkTranscriber_missing_model_witness :
    ("/models/absent.bin" : String) ∉ ([] : List String) ∧
    mkTranscriber id [] "/models/absent.bin" {} {} =
      .error (.modelNotFound "/models/absent.bin") ∧
    ∀ t, mkTranscriber id [] "/models/absent.bin" {} {} ≠ .ok t :=
  ⟨by simp,
   (mkTranscriber_missing_model id [] "/models/absent.bin" {} {} (by simp)).1,
   (mkTranscriber_missing_model id [] "/models/absent.bin" {} {} (by simp)).2⟩

/-- C10: the transcription handler checks availability before input
validation — while the transcriber is uninitialized every request gets
HTTP 503, for any uploaded body including the empty one; only once a
transcriber is present does an empty body get HTTP 400. -/
theorem handler_unavailable_before_validation (run : Engine) (temp_path : String)
    (fs : List String) (file : List Nat) (language : Option String) :
    (handleTranscription none run temp_path fs file language).1.status = 503 ∧
    (∀ t : Transcriber, file.length = 0 →
      (handleTranscription (some t) run temp_path fs file language).1.status = 400) := by
  constructor
  · rfl
  · intro t h
    simp [handleTranscription, h]

/-- Witness for C10 at an empty uploaded body. -/
theorem handler_unavailable_before_validation_witness :
    (handleTranscription none (fun _ _ => .timeout) "/tmp/a.wav" [] [] none).1.status = 503 ∧
    ([] : List Nat).length = 0 ∧
    (handleTranscription
      (some { model_path := "/m.bin", config := {}, vad_config := {} })
      (fun _ _ => .timeout) "/tmp/a.wav" [] [] none).1.status = 400 :=
  ⟨(handler_unavailable_before_validation (fun _ _ => .timeout) "/tmp/a.wav" [] [] none).1,
   rfl,
   (handler_unavailable_before_validation (fun _ _ => .timeout) "/tmp/a.wav" [] [] none).2
     { model_path := "/m.bin", config := {}, vad_config := {} } rfl⟩

/-- C3: the effective language is the caller's override when provided and
non-empty, else the configured default; it appears as the value of the
`-l` argument of the engine invocation, and on success it is the
`language` field of the returned result — for every configured default. -/
theorem transcribe_effective_language (t : Transcriber) (run : Engine)
    (temp_path : String) (fs : List String) (audio_data : List Nat)
    (language : Option String) :
    (∀ l, language = some l → l ≠ "" → effLang t.config language = l) ∧
    (language = none → effLang t.config language = t.config.language) ∧
    (language = some "" → effLang t.config language = t.config.language) ∧
    (buildCmd t (effLang t.config language) temp_path)[3]? = some "-l" ∧
    (buildCmd t (effLang t.config language) temp_path)[4]? =
      some (effLang t.config language) ∧
    (∀ out err,
      run (buildCmd t (effLang t.config language) temp_path) engineTimeoutSeconds =
        .completed 0 out err →
      (t.transcribe run temp_path fs audio_data language).1 =
        .ok { text := cleanOutput out, language := effLang t.config language,
              duration_ms := 0, segments := none }) := by
  refine ⟨?_, ?_, ?_, rfl, rfl, ?_⟩
  · rintro l rfl hl
    simp [effLang, hl]
  · rintro rfl
    rfl
  · rintro rfl
    simp [effLang]
  · intro out err hrun
    simp [Transcriber.transcribe, hrun]

/-- Witness for C3: override `"fr"` wins over the default `"en"`, all the
way into the returned result; the absent override falls back to `"en"`. -/
theorem transcribe_effective_language_witness :
    (some "fr" = some ("fr" : String)) ∧ ("fr" : String) ≠ "" ∧
    effLang {} (some "fr") = "fr" ∧
    effLang {} none = "en" ∧
    (Transcriber.transcribe
        { model_path := "/m.bin", config := {}, vad_config := {} }
        (fun _ _ => .completed 0 " bonjour " "") "/tmp/a.wav" [] [7] (some "fr")).1 =
      .ok { text := cleanOutput " bonjour ",
            language := effLang ({} : WhisperConfig) (some "fr"),
            duration_ms := 0, segments := none } :=
  ⟨rfl, by decide,
   (transcribe_effective_language
      { model_path := "/m.bin", config := {}, vad_config := {} }
      (fun _ _ => .completed 0 " bonjour " "") "/tmp/a.wav" [] [7] (some "fr")).1
     "fr" rfl (by decide),
   (transcribe_effective_language
      { model_path := "/m.bin", config := {}, vad_config := {} }
      (fun _ _ => .completed 0 " bonjour " "") "/tmp/a.wav" [] [7] none).2.1 rfl,
   (transcribe_effective_language
      { model_path := "/m.bin", config := {}, vad_config := {} }
      (fun _ _ => .completed 0 " bonjour " "") "/tmp/a.wav" [] [7] (some "fr")).2.2.2.2.2
     " bonjour " "" rfl⟩

/-- C4: with VAD enabled the argument list is exactly the fixed flags, then
the complete contiguous four-argument VAD block, then the temporary file
path; with VAD disabled it is exactly the fixed flags then the path, and
(provided the configured strings are not themselves VAD flag spellings)
none of the four VAD flags occurs anywhere in the list; in both cases the
temporary file path is the last argument. -/
theorem buildCmd_vad_block (t : Transcriber) (language temp_path : String) :
    (t.vad_config.enabled = true →
      buildCmd t language temp_path =
        ["whisper-cli", "-m", t.model_path, "-l", language, "-t",
         toString t.config.threads, "--no-timestamps", "-np",
         "--vad", "-vt", toString t.vad_config.threshold,
         "-vspd", toString t.vad_config.min_speech_duration_ms,
         "-vsd", toString t.vad_config.min_silence_duration_ms, temp_path]) ∧
    (t.vad_config.enabled = false →
      buildCmd t language temp_path =
        ["whisper-cli", "-m", t.model_path, "-l", language, "-t",
         toString t.config.threads, "--no-timestamps", "-np", temp_path]) ∧
    (t.vad_config.enabled = false →
      t.model_path ∉ vadFlagNames → language ∉ vadFlagNames →
      toString t.config.threads ∉ vadFlagNames → temp_path ∉ vadFlagNames →
      ∀ f ∈ vadFlagNames, f ∉ buildCmd t language temp_path) ∧
    (buildCmd t language temp_path).getLast? = some temp_path := by
  refine ⟨?_, ?_, ?_, ?_⟩
  · intro h
    simp [buildCmd, vadArgs, h]
  · intro h
    simp [buildCmd, h]
  · intro h h1 h2 h3 h4 f hf hmem
    rw [show buildCmd t language temp_path =
      ["whisper-cli", "-m", t.model_path, "-l", language, "-t",
       toString t.config.threads, "--no-timestamps", "-np", temp_path] from by
        simp [buildCmd, h]] at hmem
    simp only [vadFlagNames, List.mem_cons, List.not_mem_nil, or_false, not_or] at h1 h2 h3 h4
    fin_cases hf <;>
      simp only [List.mem_cons, List.not_mem_nil, or_false] at hmem <;>
      rcases hmem with hx | hx | hx | hx | hx | hx | hx | hx | hx <;>
      exact absurd hx.symm (by simp_all)
  · show (("whisper-cli" :: "-m" :: t.model_path :: "-l" :: language ::
      "-t" :: toString t.config.threads :: "--no-timestamps" :: "-np" :: []) ++
      ((if t.vad_config.enabled then vadArgs t.vad_config else []) ++ [temp_path])).getLast? =
      some temp_path
    rw [← List.append_assoc]
    exact List.getLast?_concat _

/-- Witness for C4: one VAD-enabled and one VAD-disabled transcriber over
default configurations. -/
theorem buildCmd_vad_block_witness :
    (buildCmd { model_path := "/m.bin", config := {}, vad_config := {} } "en" "/tmp/a.wav" =
      ["whisper-cli", "-m", "/m.bin", "-l", "en", "-t", toString (4 : Int),
       "--no-timestamps", "-np", "--vad", "-vt", toString (0.5 : Rat),
       "-vspd", toString (250 : Int), "-vsd", toString (700 : Int), "/tmp/a.wav"]) ∧
    (buildCmd { model_path := "/m.bin", config := {},
                vad_config := { enabled := false } } "en" "/tmp/a.wav" =
      ["whisper-cli", "-m", "/m.bin", "-l", "en", "-t", toString (4 : Int),
       "--no-timestamps", "-np", "/tmp/a.wav"]) ∧
    (∀ f ∈ vadFlagNames,
      f ∉ buildCmd { model_path := "/m.bin", config := {},
                     vad_config := { enabled := false } } "en" "/tmp/a.wav") ∧
    (buildCmd { model_path := "/m.bin", config := {}, vad_config := {} }
      "en" "/tmp/a.wav").getLast? = some "/tmp/a.wav" :=
  ⟨(buildCmd_vad_block { model_path := "/m.bin", config := {}, vad_config := {} }
      "en" "/tmp/a.wav").1 rfl,
   (buildCmd_vad_block { model_path := "/m.bin", config := {},
                         vad_config := { enabled := false } } "en" "/tmp/a.wav").2.1 rfl,
   (buildCmd_vad_block { model_path := "/m.bin", config := {},
                         vad_config := { enabled := false } } "en" "/tmp/a.wav").2.2.1 rfl
     (by decide) (by decide) (by decide) (by decide),
   (buildCmd_vad_block { model_path := "/m.bin", config := {}, vad_config := {} }
      "en" "/tmp/a.wav").2.2.2⟩

/-- C5: when the engine run completes, exit code 0 is the only status that
yields a `TranscriptionResult`; on any non-zero status `transcribe` fails
with the runtime error whose message embeds the captured standard-error
text verbatim. -/
theorem transcribe_nonzero_exit_fails (t : Transcriber) (run : Engine)
    (temp_path : String) (fs : List String) (audio_data : List Nat)
    (language : Option String) (rc : Int) (out err : String)
    (hrun : run (buildCmd t (effLang t.config language) temp_path)
      engineTimeoutSeconds = .completed rc out err) :
    ((∃ r, (t.transcribe run temp_path fs audio_data language).1 = .ok r) ↔ rc = 0) ∧
    (rc ≠ 0 →
      (t.transcribe run temp_path fs audio_data language).1 =
        .error (.runtimeError ("whisper-cli failed: " ++ err)) ∧
      ∃ p q, "whisper-cli failed: " ++ err = p ++ err ++ q) := by
  by_cases hrc : rc = 0
  · subst hrc
    constructor
    · simp [Transcriber.transcribe, hrun]
    · intro h
      exact absurd rfl h
  · constructor
    · constructor
      · rintro ⟨r, hr⟩
        simp [Transcriber.transcribe, hrun, hrc] at hr
      · intro h
        exact absurd h hrc
    · intro _
      exact ⟨by simp [Transcriber.transcribe, hrun, hrc],
        "whisper-cli failed: ", "", by simp⟩

/-- Witness for C5: a run exiting with status 1 and standard error
`"boom"`. -/
theorem transcribe_nonzero_exit_fails_witness :
    ((∃ r, (Transcriber.transcribe
        { model_path := "/m.bin", config := {}, vad_config := {} }
        (fun _ _ => .completed 1 "" "boom") "/tmp/a.wav" [] [] none).1 = .ok r) ↔
      (1 : Int) = 0) ∧
    (Transcriber.transcribe
        { model_path := "/m.bin", config := {}, vad_config := {} }
        (fun _ _ => .completed 1 "" "boom") "/tmp/a.wav" [] [] none).1 =
      .error (.runtimeError ("whisper-cli failed: " ++ "boom")) ∧
    ∃ p q, ("whisper-cli failed: " ++ "boom" : String) = p ++ "boom" ++ q :=
  ⟨(transcribe_nonzero_exit_fails
      { model_path := "/m.bin", config := {}, vad_config := {} }
      (fun _ _ => .completed 1 "" "boom") "/tmp/a.wav" [] [] none 1 "" "boom" rfl).1,
   ((transcribe_nonzero_exit_fails
      { model_path := "/m.bin", config := {}, vad_config := {} }
      (fun _ _ => .completed 1 "" "boom") "/tmp/a.wav" [] [] none 1 "" "boom" rfl).2
     (by decide)).1,
   ((transcribe_nonzero_exit_fails
      { model_path := "/m.bin", config := {}, vad_config := {} }
      (fun _ _ => .completed 1 "" "boom") "/tmp/a.wav" [] [] none 1 "" "boom" rfl).2
     (by decide)).2⟩

/-- C6: the engine is invoked with the 60-second timeout constant; when
that run times out, `transcribe` fails with the timeout error, which is a
distinct failure from every non-zero-exit runtime error and is never a
success result. -/
theorem transcribe_timeout_distinct (t : Transcriber) (run : Engine)
    (temp_path : String) (fs : List String) (audio_data : List Nat)
    (language : Option String)
    (hrun : run (buildCmd t (effLang t.config language) temp_path)
      engineTimeoutSeconds = .timeout) :
    engineTimeoutSeconds = 60 ∧
    (t.transcribe run temp_path fs audio_data language).1 = .error .timeoutExpired ∧
    (∀ msg, (TranscriptionError.timeoutExpired : TranscriptionError) ≠
      .runtimeError msg) ∧
    (∀ r, (t.transcribe run temp_path fs audio_data language).1 ≠ .ok r) := by
  refine ⟨rfl, ?_, ?_, ?_⟩
  · simp [Transcriber.transcribe, hrun]
  · intro msg h
    exact TranscriptionError.noConfusion h
  · intro r h
    rw [show (t.transcribe run temp_path fs audio_data language).1 =
      .error .timeoutExpired from by simp [Transcriber.transcribe, hrun]] at h
    exact Except.noConfusion h

/-- Witness for C6: an engine that always exceeds the timeout. -/
theorem transcribe_timeout_distinct_witness :
    engineTimeoutSeconds = 60 ∧
    (Transcriber.transcribe
        { model_path := "/m.bin", config := {}, vad_config := {} }
        (fun _ _ => .timeout) "/tmp/a.wav" [] [] none).1 = .error .timeoutExpired ∧
    (∀ msg, (TranscriptionError.timeoutExpired : TranscriptionError) ≠
      .runtimeError msg) ∧
    (∀ r, (Transcriber.transcribe
        { model_path := "/m.bin", config := {}, vad_config := {} }
        (fun _ _ => .timeout) "/tmp/a.wav" [] [] none).1 ≠ .ok r) :=
  transcribe_timeout_distinct
    { model_path := "/m.bin", config := {}, vad_config := {} }
    (fun _ _ => .timeout) "/tmp/a.wav" [] [] none rfl

/-- C7: a missing file loads to the `Config` of all documented defaults,
and every valid document (recognized keys, scalars of the field types —
whether empty, partial or fully specified) loads to a `Config` in which
each of the nine fields is the source's explicit value or the documented
default, never unset. -/
theorem load_config_explicit_or_default :
    load_config none = .ok { server := { host := "0.0.0.0", port := 8005 },
                             whisper := { model_path := "models/ggml-base.bin",
                                          language := "en", threads := 4 },
                             vad := { enabled := true, threshold := 0.5,
                                      min_speech_duration_ms := 250,
                                      min_silence_duration_ms := 700 } } ∧
    ∀ d : RawDoc, validDoc d = true →
      ∃ c, load_config (some d) = .ok c ∧ configFieldSpec d c := by
  refine ⟨rfl, ?_⟩
  intro d hv
  simp only [validDoc, Bool.and_eq_true] at hv
  obtain ⟨⟨⟨⟨⟨hk1, ht1⟩, hk2⟩, ht2⟩, hk3⟩, ht3⟩ := hv
  obtain ⟨sc, es, hs1, hs2⟩ := mkServerConfig_spec hk1 ht1
  obtain ⟨wc, ew, hw1, hw2, hw3⟩ := mkWhisperConfig_spec hk2 ht2
  obtain ⟨vc, ev, hv1, hv2, hv3, hv4⟩ := mkVADConfig_spec hk3 ht3
  refine ⟨⟨sc, wc, vc⟩, by simp [load_config, es, ew, ev], ?_⟩
  exact ⟨hs1, hs2, hw1, hw2, hw3, hv1, hv2, hv3, hv4⟩

/-- Witness for C7: a partially specified document (explicit port,
explicit VAD enable flag, everything else defaulted). -/
theorem load_config_explicit_or_default_witness :
    validDoc { server := [("port", .int 9000)], whisper := [],
               vad := [("enabled", .bool false)] } = true ∧
    ∃ c, load_config (some { server := [("port", .int 9000)], whisper := [],
                             vad := [("enabled", .bool false)] }) = .ok c ∧
      configFieldSpec { server := [("port", .int 9000)], whisper := [],
                        vad := [("enabled", .bool false)] } c :=
  ⟨by decide,
   load_config_explicit_or_default.2
     { server := [("port", .int 9000)], whisper := [],
       vad := [("enabled", .bool false)] } (by decide)⟩

/-- C8: a document in which some section carries a key that is not a field
of that section's dataclass makes `load_config` fail with a configuration
error instead of dropping the key. -/
theorem load_config_rejects_unknown_key (d : RawDoc)
    (h : (∃ q ∈ d.server, q.1 ∉ serverKeys) ∨ (∃ q ∈ d.whisper, q.1 ∉ whisperKeys) ∨
      (∃ q ∈ d.vad, q.1 ∉ vadKeys)) :
    ∃ e, load_config (some d) = .error e := by
  have toFalse : ∀ (keys : List String) (sec : RawSection),
      (∃ q ∈ sec, q.1 ∉ keys) → knownKeys keys sec = false := by
    rintro keys sec ⟨q, hq, hnk⟩
    apply List.all_eq_false.mpr
    exact ⟨q, hq, by simpa [List.elem_iff] using hnk⟩
  rcases h with hs | hw | hv
  · exact ⟨.unknownKey "server",
      by simp [load_config, mkServerConfig_err (toFalse _ _ hs)]⟩
  · cases hms : mkServerConfig d.server with
    | error e => exact ⟨e, by simp [load_config, hms]⟩
    | ok sc =>
      exact ⟨.unknownKey "whisper",
        by simp [load_config, hms, mkWhisperConfig_err (toFalse _ _ hw)]⟩
  · cases hms : mkServerConfig d.server with
    | error e => exact ⟨e, by simp [load_config, hms]⟩
    | ok sc =>
      cases hmw : mkWhisperConfig d.whisper with
      | error e => exact ⟨e, by simp [load_config, hms, hmw]⟩
      | ok wc =>
        exact ⟨.unknownKey "vad",
          by simp [load_config, hms, hmw, mkVADConfig_err (toFalse _ _ hv)]⟩

/-- Witness for C8: a misspelled `host` key in the `server` section. -/
theorem load_config_rejects_unknown_key_witness :
    (∃ q ∈ ([("hostt", YVal.str "0.0.0.0")] : RawSection), q.1 ∉ serverKeys) ∧
    ∃ e, load_config (some { server := [("hostt", .str "0.0.0.0")], whisper := [],
                             vad := [] }) = .error e :=
  ⟨by decide,
   load_config_rejects_unknown_key
     { server := [("hostt", .str "0.0.0.0")], whisper := [], vad := [] }
     (Or.inl (by decide))⟩

/-- C2 counterexample: on stdout `"a [1 --> 2]  b"` with exit status 0 the
code returns `"a b"` — the regex `\[[\d:\.]+\s*-->\s*[\d:\.]+\]\s*` also
matches markup that is not of the `hh:mm:ss.mmm` shape and swallows the
whitespace after the closing bracket — while removing only exact
`[hh:mm:ss.mmm --> hh:mm:ss.mmm]` occurrences and no other character, as
the claim states, would leave the string unchanged. -/
theorem transcribe_clean_counterexample :
    (Transcriber.transcribe
        { model_path := "/m.bin", config := {}, vad_config := {} }
        (fun _ _ => .completed 0 "a [1 --> 2]  b" "") "/tmp/a.wav" [] [] none).1 =
      .ok { text := "a b", language := "en", duration_ms := 0, segments := none } ∧
    specClean "a [1 --> 2]  b" = "a [1 --> 2]  b" ∧
    ("a b" : String) ≠ "a [1 --> 2]  b" := by
  refine ⟨?_, ?_, by decide⟩
  · decide
  · decide

/-- C2 (amended): for every engine stdout whose trimmed form decomposes
into `[`-free text fragments interleaved with timestamp-range markup
tokens of the shape the code's regex accepts (`[` digits/colons/dots,
optional whitespace, `-->`, optional whitespace, digits/colons/dots `]`),
a zero exit status returns exactly the trimmed concatenation of the
fragments in which each markup token and the whitespace immediately
following it have been removed — all other text, internal whitespace
included, is preserved. -/
theorem transcribe_clean_amended (t : Transcriber) (run : Engine)
    (temp_path : String) (fs : List String) (audio_data : List Nat)
    (language : Option String) (t0 : List Char)
    (parts : List (TsMarkup × List Char)) (stdout err : String)
    (h0 : '[' ∉ t0) (hp : ∀ q ∈ parts, q.1.WFtok ∧ '[' ∉ q.2)
    (hs : pyStripL stdout.data = interleave t0 parts)
    (hrun : run (buildCmd t (effLang t.config language) temp_path)
      engineTimeoutSeconds = .completed 0 stdout err) :
    (t.transcribe run temp_path fs audio_data language).1 =
      .ok { text := String.mk (pyStripL (interleaveStripped t0 parts)),
            language := effLang t.config language,
            duration_ms := 0, segments := none } := by
  have hclean : cleanOutput stdout =
      String.mk (pyStripL (interleaveStripped t0 parts)) := by
    unfold cleanOutput
    rw [hs, stripTs_interleave parts t0 h0 hp]
  simp [Transcriber.transcribe, hrun, hclean]

/-- Witness for the amended C2: stdout `"a [1 --> 2]  b\n"` (with a
trailing newline, exercising the code's first trim) trims to a form that
decomposes as fragment `"a "`, markup `[1 --> 2]`, fragment `"  b"`; the
call returns `"a b"`. -/
theorem transcribe_clean_amended_witness :
    ('[' ∉ (['a', ' '] : List Char)) ∧
    (∀ q ∈ ([(⟨['1'], [' '], [' '], ['2']⟩, [' ', ' ', 'b'])] :
        List (TsMarkup × List Char)), q.1.WFtok ∧ '[' ∉ q.2) ∧
    pyStripL ("a [1 --> 2]  b\n" : String).data =
      interleave ['a', ' '] [(⟨['1'], [' '], [' '], ['2']⟩, [' ', ' ', 'b'])] ∧
    (Transcriber.transcribe
        { model_path := "/m.bin", config := {}, vad_config := {} }
        (fun _ _ => .completed 0 "a [1 --> 2]  b\n" "") "/tmp/a.wav" [] [] none).1 =
      .ok { text := String.mk (pyStripL (interleaveStripped ['a', ' ']
              [(⟨['1'], [' '], [' '], ['2']⟩, [' ', ' ', 'b'])])),
            language := effLang ({} : WhisperConfig) none,
            duration_ms := 0, segments := none } :=
  ⟨by decide, by decide, by decide,
   transcribe_clean_amended
     { model_path := "/m.bin", config := {}, vad_config := {} }
     (fun _ _ => .completed 0 "a [1 --> 2]  b\n" "") "/tmp/a.wav" [] [] none
     ['a', ' '] [(⟨['1'], [' '], [' '], ['2']⟩, [' ', ' ', 'b'])]
     "a [1 --> 2]  b\n" ""
     (by decide) (by decide) (by decide) rfl⟩
